import Mathlib

/-!
Shallow embedding of williamnoble/kubernetes-docs-scraper (src/scraper.py,
src/fs.py, src/main.py) and proofs about the claims of its specification.

Python string operations are embedded as structural recursions over
`List Char` so that every definition reduces inside the kernel; each is a
faithful model of the Python operation named in its doc comment, restricted
to the ways the scraper uses it.
-/

namespace KubeScraper

/-- Python single-character str.split: `splitOnChar c l` splits `l` at every
occurrence of `c` (used for `split('.')` at scraper.py line 106 and
`split('\n')` at line 214). -/
def splitOnChar (c : Char) : List Char → List (List Char)
  | [] => [[]]
  | x :: xs =>
    match splitOnChar c xs, decide (x = c) with
    | r, true => [] :: r
    | [], false => [[x]]
    | h :: t, false => (x :: h) :: t

/-- Python `sep.join(parts)` (scraper.py line 107 with ".", line 224 with a
newline). -/
def joinWith (sep : String) : List String → String
  | [] => ""
  | [s] => s
  | s :: rest => s ++ sep ++ joinWith sep rest

/-- Python substring containment `pat in line` (scraper.py line 218). -/
def containsSub (pat : List Char) : List Char → Bool
  | [] => pat.isEmpty
  | x :: xs => pat.isPrefixOf (x :: xs) || containsSub pat xs

/-- Python `str.replace(pat, repl)` for a non-empty pattern, fuelled by the
length of the subject so the recursion is structural (scraper.py line 220):
non-overlapping occurrences are replaced left to right. -/
def replaceFuel (pat repl : List Char) : Nat → List Char → List Char
  | 0, l => l
  | _ + 1, [] => []
  | fuel + 1, x :: xs =>
    if pat ≠ [] ∧ pat.isPrefixOf (x :: xs) then
      repl ++ replaceFuel pat repl fuel ((x :: xs).drop pat.length)
    else
      x :: replaceFuel pat repl fuel xs

/-- Python `s.replace(pat, repl)` on strings. -/
def pyReplace (s pat repl : String) : String :=
  String.mk (replaceFuel pat.data repl.data s.data.length s.data)

/-- The whitespace characters Python str.strip removes. -/
def pySpace (c : Char) : Bool :=
  c = ' ' || c = '\t' || c = '\n' || c = '\r' || c = '\x0b' || c = '\x0c'

/-- Python `s.strip()` (scraper.py line 106). -/
def pyStrip (s : String) : String :=
  String.mk (((s.data.dropWhile pySpace).reverse.dropWhile pySpace).reverse)

/-- Python `s.startswith(pre)` (scraper.py lines 171 and 182). -/
def pyStartsWith (s pre : String) : Bool :=
  pre.data.isPrefixOf s.data

/-- Python `s.endswith(suf)` (a helper for os.path.join below). -/
def pyEndsWith (s suf : String) : Bool :=
  suf.data.isSuffixOf s.data

/-- Python `s.lower()` (scraper.py line 31). -/
def pyLower (s : String) : String :=
  String.mk (s.data.map Char.toLower)

/-- Python `int(s)` for the non-negative decimal strings the scraper feeds it
(scraper.py lines 108-109); none models the ValueError on anything else. -/
def pyInt (s : String) : Option Nat :=
  if s.data ≠ [] ∧ s.data.all Char.isDigit then
    some (s.data.foldl (fun n c => n * 10 + (c.toNat - 48)) 0)
  else
    none

/-- os.path.join(dir, file) for the shapes the scraper uses
(scraper.py line 51, fs.py line 28). -/
def os_path_join (dir file : String) : String :=
  if pyStartsWith file "/" then file
  else if dir.data.isEmpty then file
  else if pyEndsWith dir "/" then dir ++ file
  else dir ++ "/" ++ file

/-- Concatenation of a list of strings in order (Python repeated `+=` and
sequential `f.write` calls). -/
def strJoin : List String → String
  | [] => ""
  | s :: rest => s ++ strJoin rest

/-- An anchor element as returned by `soup.select('a.td-sidebar-link')`:
`href` is `a.get('href')`, none when the attribute is absent. -/
structure Anchor where
  href : Option String
deriving DecidableEq

/-- The two components of `urllib.parse.urlparse` that the scraper consults
(scraper.py lines 170, 179-182). -/
structure ParsedUrl where
  netloc : String
  path : String
deriving DecidableEq

/-- A parsed HTML page (BeautifulSoup), restricted to the two views scraper.py
takes of it: the anchors selected by `soup.select('a.td-sidebar-link')`
(line 173) and the container returned by
`parsed_page.select_one('.td-content')` (line 197), when present. -/
structure ParsedPage where
  sidebarAnchors : List Anchor
  tdContent : Option String

/-- The external collaborators of scraper.py, passed explicitly: urllib's
urljoin and urlparse, markdownify's `md(_, heading_style="ATX")` conversion,
and the network: `net url` is the result of `download_page(url)`
(scraper.py lines 134-153), none when the request failed and the method
returned None. -/
structure Env where
  urljoin : String → String → String
  urlparse : String → ParsedUrl
  mdATX : String → String
  net : String → Option ParsedPage

/-- The Configuration object built in main.py lines 73-78, together with the
base-URL fields scraper.py reads from it. -/
structure Configuration where
  output_dir : String
  max_links_to_process : Int
  sections : List String
  skip_links : List String
  kubernetes_docs_base_url : String

/-- Python truthiness of `href` at scraper.py line 176: an absent or empty
href is skipped. -/
def Anchor.truthyHref (a : Anchor) : Option String :=
  match a.href with
  | none => none
  | some h => if h.data.isEmpty then none else some h

/-- The slash normalization of the section path at scraper.py line 171. -/
def normalize_section_path (section_path : String) : String :=
  if pyStartsWith section_path "/" then section_path else "/" ++ section_path

/-- The filter applied to each resolved URL at scraper.py lines 181-182: same
netloc as the base URL and path beginning with the normalized section path. -/
def keepLink (urlparse : String → ParsedUrl) (base_url sp u : String) : Bool :=
  (urlparse u).netloc == (urlparse base_url).netloc &&
    pyStartsWith (urlparse u).path sp

/-- One iteration of the anchor loop of find_links (scraper.py lines
174-183): skip a falsy href, resolve the rest against the base URL, keep the
absolute URL when it passes the host-and-path filter. -/
def find_links_step (urljoin : String → String → String)
    (urlparse : String → ParsedUrl) (base_url sp : String)
    (all_links : List String) (a : Anchor) : List String :=
  match a.truthyHref with
  | none => all_links
  | some href =>
    let absolute_url := urljoin base_url href
    if keepLink urlparse base_url sp absolute_url then all_links ++ [absolute_url]
    else all_links

/-- Scraper.find_links (scraper.py lines 155-184). -/
def find_links (urljoin : String → String → String) (urlparse : String → ParsedUrl)
    (anchors : List Anchor) (base_url : String) (section_path : String) : List String :=
  anchors.foldl
    (find_links_step urljoin urlparse base_url (normalize_section_path section_path))
    []

/-- The 79-hyphen separator written after every extracted page
(scraper.py line 205) and after every changelog body (line 120). -/
def horizontalRule : String :=
  String.mk (List.replicate 79 '-')

/-- The full trailing separator of an extracted page: the rule surrounded by
blank lines. -/
def pageTrailer : String :=
  "\n\n" ++ horizontalRule ++ "\n\n"

/-- Scraper.transform_markdown_links (scraper.py lines 208-224): every line
containing "](/docs" has each occurrence replaced by the absolute prefix. -/
def transform_markdown_links (page_markdown : String) : String :=
  let lines := (splitOnChar '\n' page_markdown.data).map String.mk
  let transformed_lines := lines.map fun line =>
    if containsSub "](/docs".data line.data then
      pyReplace line "](/docs" "](https://kubernetes.io/docs"
    else line
  joinWith "\n" transformed_lines

/-- Scraper.extract_content (scraper.py lines 186-206). -/
def extract_content (mdATX : String → String) (parsed_page : ParsedPage)
    (link : String) : Option String :=
  match parsed_page.tdContent with
  | none => none
  | some content_div =>
    let raw_markdown_content := mdATX content_div
    let transformed_markdown_content := transform_markdown_links raw_markdown_content
    some ("Page Source: " ++ link ++ "\n\n" ++ transformed_markdown_content ++ pageTrailer)

/-- A minimal filesystem: a path has contents exactly when the file exists. -/
def FS : Type := String → Option String

/-- The filesystem with no files. -/
def fsEmpty : FS := fun _ => none

/-- `open(path, "w")` followed by writing `content`: create or truncate. -/
def fsWrite (fs : FS) (path content : String) : FS :=
  fun p => if p = path then some content else fs p

/-- `open(path, "a")` followed by writing `content`: append, creating the
file when absent. -/
def fsAppend (fs : FS) (path content : String) : FS :=
  fun p => if p = path then some (((fs path).getD "") ++ content) else fs p

/-- The heading written at the top of a section file (scraper.py line 53). -/
def section_heading (section_name : String) : String :=
  "# Kubernetes Documentation: " ++ section_name ++ "\n\n"

/-- What scrape_section returns, with the filesystem it left behind:
the failed links and the `total_links` count of scraper.py line 68. -/
structure SectionScrapeResult where
  fs : FS
  failed_links : List String
  total_links : Nat

/-- Python `links[:n]` for an int bound (a negative bound counts from the
end; the scraper only ever passes -1 through the sentinel branch). -/
def pySliceTo (l : List String) (n : Int) : List String :=
  if 0 ≤ n then l.take n.toNat else l.take (l.length - (-n).toNat)

/-- The truncation at scraper.py line 67:
links[:config.max_links_to_process if config.max_links_to_process != -1 else len(links)]. -/
def links_to_process (links : List String) (max_links_to_process : Int) : List String :=
  pySliceTo links (if max_links_to_process ≠ -1 then max_links_to_process
    else (links.length : Int))

/-- One iteration of the per-link loop of scrape_section (scraper.py lines
75-86): the accumulator is (page_contents, failed_links); `if not
page_markdown` is Python truthiness, so an empty extracted string would also
count as a failure. -/
def process_link_step (net : String → Option ParsedPage) (mdATX : String → String)
    (acc : List String × List String) (link : String) : List String × List String :=
  match net link with
  | none => (acc.1, acc.2 ++ [link])
  | some parsed_page =>
    match extract_content mdATX parsed_page link with
    | none => (acc.1, acc.2 ++ [link])
    | some page_markdown =>
      if page_markdown.data.isEmpty then (acc.1, acc.2 ++ [link])
      else (acc.1 ++ [page_markdown], acc.2)

/-- The whole per-link loop of scrape_section (scraper.py lines 72-86). -/
def process_links (net : String → Option ParsedPage) (mdATX : String → String)
    (links : List String) : List String × List String :=
  links.foldl (process_link_step net mdATX) ([], [])

/-- The tail of scrape_section once the link list to process is fixed
(scraper.py lines 72-94): run the loop, append the collected contents to the
section file, and return the failures with `total_links`. -/
def scrape_section_body (env : Env) (fs1 : FS) (section_output_path : String)
    (ltp : List String) : SectionScrapeResult :=
  let pc := process_links env.net env.mdATX ltp
  let fs2 := pc.1.foldl (fun f content => fsAppend f section_output_path content) fs1
  ⟨fs2, pc.2, ltp.length⟩

/-- Scraper.scrape_section (scraper.py lines 39-94): the section file is
created (truncated) with its heading before the index page is fetched; a
failed index fetch returns ([], 0) with the file left holding the heading. -/
def scrape_section (env : Env) (fs : FS) (section_url section_name : String)
    (config : Configuration) : SectionScrapeResult :=
  let section_output_path := os_path_join config.output_dir (section_name ++ ".md")
  let fs1 := fsWrite fs section_output_path (section_heading section_name)
  match env.net section_url with
  | none => ⟨fs1, [], 0⟩
  | some soup =>
    let section_path := (env.urlparse section_url).path
    let links := find_links env.urljoin env.urlparse soup.sidebarAnchors
      section_url section_path
    scrape_section_body env fs1 section_output_path
      (links_to_process links config.max_links_to_process)

/-- The results accumulated by Scraper.run (scraper.py lines 249-253). -/
structure ScrapingResults where
  failed_links : List String
  links_processed : Nat
deriving DecidableEq

/-- The section URL built at scraper.py line 31. -/
def section_url_of (config : Configuration) (sectionName : String) : String :=
  config.kubernetes_docs_base_url ++ "/" ++ pyLower sectionName ++ "/"

/-- The body of the loop of Scraper.run (scraper.py lines 30-35): scrape one
section and fold its failures and count into the results. -/
def run_step (env : Env) (config : Configuration) (acc : FS × ScrapingResults)
    (sectionName : String) : FS × ScrapingResults :=
  let r := scrape_section env acc.1 (section_url_of config sectionName) sectionName config
  (r.fs,
    ⟨if r.failed_links.isEmpty then acc.2.failed_links
      else acc.2.failed_links ++ r.failed_links,
     acc.2.links_processed + r.total_links⟩)

/-- Scraper.run (scraper.py lines 19-37), with the filesystem threaded
through explicitly. -/
def run (env : Env) (fs : FS) (config : Configuration) : FS × ScrapingResults :=
  config.sections.foldl (run_step env config) (fs, ⟨[], 0⟩)

/-- Outcome of `session.get` on a changelog endpoint: the request itself may
raise (netError), or return a response whose `ok` says whether
raise_for_status passes (2xx) and whose body is `response.text`. -/
inductive FetchOutcome where
  | netError
  | response (ok : Bool) (body : String)
deriving DecidableEq

/-- Python `range(start, stop, -1)` over ℕ (scraper.py line 113). -/
def pyRangeDown (start stop : Nat) : List Nat :=
  (List.range (start - stop)).map (fun i => start - i)

/-- The changelog download loop (scraper.py lines 113-121): the response body
and the separator are appended before raise_for_status fires, but on a raise
(a request error, or a non-2xx status) the handlers at lines 122-129 return
without writing any file, discarding the markdown: modelled as none. -/
def changelog_loop (fetch : Nat → FetchOutcome) : List Nat → String → Option String
  | [], markdown => some markdown
  | version :: rest, markdown =>
    match fetch version with
    | FetchOutcome.netError => none
    | FetchOutcome.response ok body =>
      let markdown := markdown ++ body ++ pageTrailer
      if ok then changelog_loop fetch rest markdown else none

/-- Scraper.get_changelog (scraper.py lines 96-132): `stableBody` is the body
of the version-pointer resource (its own fetch failing raises out of the
method); `fetch major minor` performs the templated changelog GET of line
118. The result is the markdown written to output/changelog.md, none when
the method returned early and wrote no file. -/
def get_changelog (fetch : Nat → Nat → FetchOutcome) (stableBody : String) :
    Option String :=
  let parts := (splitOnChar '.' ((pyStrip stableBody).data.drop 1)).map String.mk
  match (parts[0]?).bind pyInt, (parts[1]?).bind pyInt with
  | some major, some minor =>
    let latest := joinWith "." (parts.take 2)
    let markdown := "# Kubernetes Changelog upto " ++ latest ++ "\n\n"
    let versions_to_process := pyRangeDown minor (9 - 1)
    changelog_loop (fetch major) versions_to_process markdown
  | _, _ => none

/-- The delimiter line of FileWriter.print_document_separator (fs.py line 51). -/
def newDocumentLine : String :=
  "+======================= NEW DOCUMENT =======================+"

/-- FileWriter.print_document_separator (fs.py lines 48-52): the three writes
concatenated. -/
def print_document_separator : String :=
  "\n\n" ++ (newDocumentLine ++ "\n") ++ "\n\n"

/-- The `content` union type of FileWriter.write (fs.py line 19). -/
inductive WriteContent where
  | str (s : String)
  | items (l : List String)

/-- The iterable branch of FileWriter.write (fs.py lines 42-46): a separator
before every item but the first, when multiple_documents is set. -/
def write_items (multiple_documents : Bool) : List String → String
  | [] => ""
  | first :: rest =>
    first ++ strJoin (rest.map fun item =>
      (if multiple_documents then print_document_separator else "") ++ item)

/-- FileWriter (fs.py lines 12-14). -/
structure FileWriter where
  output_dir : String

/-- FileWriter.write (fs.py lines 16-46) on the filesystem model: skip when
the file exists and overwrite is false; otherwise open with `mode` ("w"
truncates, anything else appends), write the header when given, then the
content. -/
def FileWriter.write (fw : FileWriter) (fs : FS) (filename : String)
    (content : WriteContent) (mode : String) (header : Option String)
    (suffix : String) (multiple_documents : Bool) (overwrite : Bool) : FS :=
  let file_name := filename ++ suffix
  let file_path := os_path_join fw.output_dir file_name
  if !overwrite && (fs file_path).isSome then fs
  else
    let base := if mode = "w" then "" else (fs file_path).getD ""
    let withHeader := base ++ (header.getD "")
    match content with
    | WriteContent.str s => fsWrite fs file_path (withHeader ++ s)
    | WriteContent.items l =>
      fsWrite fs file_path (withHeader ++ write_items multiple_documents l)

/-- The per-section count that scrape_section reports as its second
component (scraper.py line 68 and line 94): the length of the truncated link
list, zero when the index fetch failed. -/
def section_total (env : Env) (config : Configuration) (sectionName : String) : Nat :=
  match env.net (section_url_of config sectionName) with
  | none => 0
  | some soup =>
    (links_to_process
      (find_links env.urljoin env.urlparse soup.sidebarAnchors
        (section_url_of config sectionName)
        (env.urlparse (section_url_of config sectionName)).path)
      config.max_links_to_process).length

/-! Concrete fixtures used by counterexamples and witnesses. -/

/-- A link in the default skip-list of main.py lines 56-65. -/
def glossaryUrl : String := "https://kubernetes.io/docs/reference/glossary/"

/-- The index URL of the reference section. -/
def referenceUrl : String := "https://kubernetes.io/docs/reference/"

/-- A toy environment for the reference section: the sidebar of the index
page holds exactly the glossary link, and fetching the glossary link fails. -/
def envRef : Env where
  urljoin := fun _ href => href
  urlparse := fun u =>
    if u = referenceUrl then ⟨"kubernetes.io", "/docs/reference/"⟩
    else if u = glossaryUrl then ⟨"kubernetes.io", "/docs/reference/glossary/"⟩
    else ⟨"", ""⟩
  mdATX := fun s => s
  net := fun u =>
    if u = referenceUrl then some ⟨[⟨some glossaryUrl⟩], none⟩ else none

/-- A configuration scraping only the reference section, with the glossary
link in the skip-list. -/
def configRef : Configuration where
  output_dir := "docs"
  max_links_to_process := -1
  sections := ["reference"]
  skip_links := [glossaryUrl]
  kubernetes_docs_base_url := "https://kubernetes.io/docs"

/-- The index URL of the concepts section. -/
def conceptsUrl : String := "https://kubernetes.io/docs/concepts/"

/-- First content page of the toy concepts section. -/
def conceptsPg1 : String := "https://kubernetes.io/docs/concepts/alpha/"

/-- Second content page of the toy concepts section. -/
def conceptsPg2 : String := "https://kubernetes.io/docs/concepts/beta/"

/-- A toy environment for the concepts section: the index page links two
content pages and both fetch and extract successfully. -/
def envConcepts : Env where
  urljoin := fun _ href => href
  urlparse := fun u =>
    if u = conceptsUrl then ⟨"kubernetes.io", "/docs/concepts/"⟩
    else if u = conceptsPg1 then ⟨"kubernetes.io", "/docs/concepts/alpha/"⟩
    else if u = conceptsPg2 then ⟨"kubernetes.io", "/docs/concepts/beta/"⟩
    else ⟨"", ""⟩
  mdATX := fun s => s
  net := fun u =>
    if u = conceptsUrl then some ⟨[⟨some conceptsPg1⟩, ⟨some conceptsPg2⟩], none⟩
    else if u = conceptsPg1 then some ⟨[], some "alpha body"⟩
    else if u = conceptsPg2 then some ⟨[], some "beta body"⟩
    else none

/-- A configuration scraping only the concepts section, nothing skipped. -/
def configConcepts : Configuration where
  output_dir := "docs"
  max_links_to_process := -1
  sections := ["concepts"]
  skip_links := []
  kubernetes_docs_base_url := "https://kubernetes.io/docs"

/-- configConcepts with max_links_to_process = 1. -/
def configConceptsMax1 : Configuration :=
  { configConcepts with max_links_to_process := 1 }

/-- An environment whose every fetch fails. -/
def envNetDown : Env where
  urljoin := fun _ href => href
  urlparse := fun _ => ⟨"", ""⟩
  mdATX := fun s => s
  net := fun _ => none

/-- A changelog fetcher for which exactly version 31 fails
(the request raises) and every other version succeeds. -/
def fetchOneFail : Nat → Nat → FetchOutcome :=
  fun _ v => if v = 31 then FetchOutcome.netError else FetchOutcome.response true "ok"

theorem find_links_example :
    find_links (fun _ h => h)
      (fun u => if u = "https://kubernetes.io/docs/concepts/" then
          ⟨"kubernetes.io", "/docs/concepts/"⟩
        else if u = "https://kubernetes.io/docs/concepts/pods/" then
          ⟨"kubernetes.io", "/docs/concepts/pods/"⟩
        else ⟨"other.example", "/x"⟩)
      [⟨some "https://kubernetes.io/docs/concepts/pods/"⟩, ⟨none⟩, ⟨some "https://evil.example/docs/concepts/"⟩]
      "https://kubernetes.io/docs/concepts/" "/docs/concepts/"
    = ["https://kubernetes.io/docs/concepts/pods/"] := by
  decide

lemma find_links_foldl (urljoin : String → String → String)
    (urlparse : String → ParsedUrl) (base_url sp : String) :
    ∀ (anchors : List Anchor) (acc : List String),
      anchors.foldl (find_links_step urljoin urlparse base_url sp) acc =
        acc ++ ((anchors.filterMap Anchor.truthyHref).map (urljoin base_url)).filter
          (keepLink urlparse base_url sp) := by
  intro anchors
  induction anchors with
  | nil => intro acc; simp
  | cons a t ih =>
    intro acc
    rw [List.foldl_cons]
    cases hg : a.truthyHref with
    | none =>
      rw [ih]
      simp [find_links_step, hg, List.filterMap_cons]
    | some href =>
      by_cases hp : keepLink urlparse base_url sp (urljoin base_url href)
      · rw [show find_links_step urljoin urlparse base_url sp acc a =
            acc ++ [urljoin base_url href] by simp [find_links_step, hg, hp]]
        rw [ih]
        simp [hg, hp, List.filterMap_cons, List.filter_cons]
      · rw [show find_links_step urljoin urlparse base_url sp acc a = acc by
          simp [find_links_step, hg, hp]]
        rw [ih]
        simp [hg, hp, List.filterMap_cons, List.filter_cons]

/-- Claim C1: find_links returns exactly the anchor hrefs, in document order
with falsy hrefs skipped and duplicates kept, each resolved against the base
URL and filtered by the host-equality and section-path-prefix test (with the
leading slash normalized onto the section path); consequently every returned
URL has the base host and a path starting with the section path, so no
foreign-host or out-of-section link is ever returned. -/
theorem find_links_only_section_links (urljoin : String → String → String)
    (urlparse : String → ParsedUrl) (anchors : List Anchor)
    (base_url section_path : String) :
    find_links urljoin urlparse anchors base_url section_path =
      ((anchors.filterMap Anchor.truthyHref).map (urljoin base_url)).filter
        (keepLink urlparse base_url (normalize_section_path section_path)) ∧
    ∀ u ∈ find_links urljoin urlparse anchors base_url section_path,
      (urlparse u).netloc = (urlparse base_url).netloc ∧
      pyStartsWith (urlparse u).path (normalize_section_path section_path) = true := by
  have hform := find_links_foldl urljoin urlparse base_url
    (normalize_section_path section_path) anchors []
  constructor
  · rw [find_links, hform]
    simp
  · intro u hu
    rw [find_links, hform] at hu
    simp only [List.nil_append, List.mem_filter] at hu
    have hk := hu.2
    rw [keepLink, Bool.and_eq_true, beq_iff_eq] at hk
    exact ⟨hk.1, hk.2⟩

lemma links_to_process_nonneg (links : List String) (n : Int) (h : 0 ≤ n) :
    links_to_process links n = links.take n.toNat := by
  have hne : n ≠ -1 := by omega
  rw [links_to_process, if_pos hne, pySliceTo, if_pos h]

lemma links_to_process_sentinel (links : List String) :
    links_to_process links (-1) = links := by
  rw [links_to_process, if_neg (by simp), pySliceTo,
    if_pos (by positivity : (0 : Int) ≤ (links.length : Int))]
  simp

/-- Claim C2: when the index fetch succeeds, scrape_section runs the rest of
its work on exactly the first max_links_to_process discovered links in
discovery order when that bound is non-negative (and at most the number
found), and on all discovered links when the bound is the sentinel -1. -/
theorem scrape_section_truncates_links (env : Env) (fs : FS)
    (section_url section_name : String) (config : Configuration)
    (soup : ParsedPage) (h : env.net section_url = some soup) :
    (0 ≤ config.max_links_to_process →
      config.max_links_to_process.toNat ≤
        (find_links env.urljoin env.urlparse soup.sidebarAnchors section_url
          (env.urlparse section_url).path).length →
      scrape_section env fs section_url section_name config =
        scrape_section_body env
          (fsWrite fs (os_path_join config.output_dir (section_name ++ ".md"))
            (section_heading section_name))
          (os_path_join config.output_dir (section_name ++ ".md"))
          ((find_links env.urljoin env.urlparse soup.sidebarAnchors section_url
            (env.urlparse section_url).path).take
            config.max_links_to_process.toNat)) ∧
    (config.max_links_to_process = -1 →
      scrape_section env fs section_url section_name config =
        scrape_section_body env
          (fsWrite fs (os_path_join config.output_dir (section_name ++ ".md"))
            (section_heading section_name))
          (os_path_join config.output_dir (section_name ++ ".md"))
          (find_links env.urljoin env.urlparse soup.sidebarAnchors section_url
            (env.urlparse section_url).path)) := by
  constructor
  · intro hnn _
    unfold scrape_section
    rw [h]
    exact congrArg
      (scrape_section_body env
        (fsWrite fs (os_path_join config.output_dir (section_name ++ ".md"))
          (section_heading section_name))
        (os_path_join config.output_dir (section_name ++ ".md")))
      (links_to_process_nonneg _ _ hnn)
  · intro hsent
    unfold scrape_section
    rw [h, hsent]
    exact congrArg
      (scrape_section_body env
        (fsWrite fs (os_path_join config.output_dir (section_name ++ ".md"))
          (section_heading section_name))
        (os_path_join config.output_dir (section_name ++ ".md")))
      (links_to_process_sentinel _)

theorem scrape_section_truncates_links_witness :
    scrape_section envConcepts fsEmpty conceptsUrl "concepts" configConceptsMax1 =
      scrape_section_body envConcepts
        (fsWrite fsEmpty "docs/concepts.md" (section_heading "concepts"))
        "docs/concepts.md" [conceptsPg1] :=
  (scrape_section_truncates_links envConcepts fsEmpty conceptsUrl "concepts"
    configConceptsMax1 ⟨[⟨some conceptsPg1⟩, ⟨some conceptsPg2⟩], none⟩ rfl).1
    (by decide) (by decide)

/-- Claim C3, evaluated at its failing input: the per-link loop of
scrape_section never consults config.skip_links, so a sidebar link that is in
the skip-list is still downloaded — here its fetch fails and it lands in the
failed-links list of the run, which the claim says can never happen. -/
theorem skip_list_link_still_processed :
    glossaryUrl ∈ configRef.skip_links ∧
    (run envRef fsEmpty configRef).2.failed_links = [glossaryUrl] ∧
    (run envRef fsEmpty configRef).2.links_processed = 1 := by
  decide

/-- Claim C5: extract_content fails exactly when select_one('.td-content')
found nothing, and otherwise returns the 'Page Source:' line, a blank line,
the ATX-converted markdown with documentation links rewritten, and the
trailing separator line surrounded by blank lines. -/
theorem extract_content_none_iff_no_container (mdATX : String → String)
    (parsed_page : ParsedPage) (link : String) :
    (extract_content mdATX parsed_page link = none ↔ parsed_page.tdContent = none) ∧
    ∀ content_div, parsed_page.tdContent = some content_div →
      extract_content mdATX parsed_page link =
        some ("Page Source: " ++ link ++ "\n\n" ++
          transform_markdown_links (mdATX content_div) ++
          ("\n\n" ++ horizontalRule ++ "\n\n")) := by
  cases htc : parsed_page.tdContent with
  | none =>
    refine ⟨by simp [extract_content, htc], ?_⟩
    intro content_div hcd
    exact Option.noConfusion hcd
  | some found =>
    refine ⟨by simp [extract_content, htc], ?_⟩
    intro content_div hcd
    cases hcd
    simp [extract_content, htc, pageTrailer]

/-- Claim C10: scrape_section truncates the section file to just its heading
before fetching the index page, so when the index fetch fails the section is
skipped with no failed links and zero links processed, the file exists
holding only the heading, and whatever the file held before is gone; no
other file is touched. -/
theorem section_file_truncated_before_index_fetch (env : Env) (fs : FS)
    (section_url section_name : String) (config : Configuration)
    (h : env.net section_url = none) :
    (scrape_section env fs section_url section_name config).fs
        (os_path_join config.output_dir (section_name ++ ".md")) =
      some (section_heading section_name) ∧
    (∀ p, p ≠ os_path_join config.output_dir (section_name ++ ".md") →
      (scrape_section env fs section_url section_name config).fs p = fs p) ∧
    (scrape_section env fs section_url section_name config).failed_links = [] ∧
    (scrape_section env fs section_url section_name config).total_links = 0 := by
  unfold scrape_section
  rw [h]
  refine ⟨?_, ?_, rfl, rfl⟩
  · show fsWrite fs _ _ _ = _
    rw [fsWrite, if_pos rfl]
  · intro p hp
    show fsWrite fs _ _ _ = _
    rw [fsWrite, if_neg hp]

theorem section_file_truncated_before_index_fetch_witness :
    (scrape_section envNetDown (fun _ => some "content of a previous run")
        conceptsUrl "concepts" configConcepts).fs "docs/concepts.md" =
      some (section_heading "concepts") :=
  (section_file_truncated_before_index_fetch envNetDown
    (fun _ => some "content of a previous run") conceptsUrl "concepts"
    configConcepts rfl).1

lemma foldl_fsAppend (path : String) :
    ∀ (l : List String) (f : FS) (s : String), f path = some s →
      l.foldl (fun g content => fsAppend g path content) f =
        fun p => if p = path then some (s ++ strJoin l) else f p := by
  intro l
  induction l with
  | nil =>
    intro f s h
    funext p
    by_cases hp : p = path
    · subst hp
      rw [List.foldl_nil, if_pos rfl, strJoin, String.append_empty, h]
    · rw [List.foldl_nil, if_neg hp]
  | cons c t ih =>
    intro f s h
    rw [List.foldl_cons]
    have h2 : (fsAppend f path c) path = some (s ++ c) := by
      simp [fsAppend, h]
    rw [ih (fsAppend f path c) (s ++ c) h2]
    funext p
    by_cases hp : p = path
    · subst hp
      rw [if_pos rfl, if_pos rfl, strJoin, String.append_assoc]
    · rw [if_neg hp, if_neg hp]
      simp [fsAppend, hp]

lemma scrape_section_body_fs (env : Env) (fs1 : FS) (path : String)
    (l : List String) (s : String) (h : fs1 path = some s) :
    (scrape_section_body env fs1 path l).fs =
      fun p => if p = path
        then some (s ++ strJoin (process_links env.net env.mdATX l).1)
        else fs1 p := by
  unfold scrape_section_body
  exact foldl_fsAppend path _ fs1 s h

lemma fsWrite_self (f : FS) (path content : String) :
    (fsWrite f path content) path = some content := by
  rw [fsWrite, if_pos rfl]

lemma scrape_section_fs_at (env : Env) (f : FS) (u n : String)
    (c : Configuration) (soup : ParsedPage) (h : env.net u = some soup) :
    (scrape_section env f u n c).fs (os_path_join c.output_dir (n ++ ".md")) =
      some (section_heading n ++
        strJoin (process_links env.net env.mdATX
          (links_to_process
            (find_links env.urljoin env.urlparse soup.sidebarAnchors u
              (env.urlparse u).path)
            c.max_links_to_process)).1) := by
  unfold scrape_section
  rw [h]
  show (scrape_section_body env
      (fsWrite f (os_path_join c.output_dir (n ++ ".md")) (section_heading n))
      (os_path_join c.output_dir (n ++ ".md"))
      (links_to_process
        (find_links env.urljoin env.urlparse soup.sidebarAnchors u
          (env.urlparse u).path)
        c.max_links_to_process)).fs
      (os_path_join c.output_dir (n ++ ".md")) = _
  rw [scrape_section_body_fs env _ _ _ (section_heading n) (fsWrite_self _ _ _)]
  simp

lemma scrape_section_fs_isSome (env : Env) (f : FS) (u n : String)
    (c : Configuration) (p : String) :
    (((scrape_section env f u n c).fs p).isSome = true) ↔
      (p = os_path_join c.output_dir (n ++ ".md") ∨ ((f p).isSome = true)) := by
  by_cases hp : p = os_path_join c.output_dir (n ++ ".md")
  · subst hp
    cases hnet : env.net u with
    | none =>
      unfold scrape_section
      rw [hnet]
      show ((fsWrite f _ (section_heading n)) _).isSome = true ↔ _
      rw [fsWrite_self]
      simp
    | some soup =>
      rw [scrape_section_fs_at env f u n c soup hnet]
      simp
  · have hne : (scrape_section env f u n c).fs p = f p := by
      cases hnet : env.net u with
      | none =>
        unfold scrape_section
        rw [hnet]
        show (fsWrite f _ (section_heading n)) p = f p
        rw [fsWrite, if_neg hp]
      | some soup =>
        unfold scrape_section
        rw [hnet]
        show (scrape_section_body env
            (fsWrite f (os_path_join c.output_dir (n ++ ".md")) (section_heading n))
            (os_path_join c.output_dir (n ++ ".md"))
            (links_to_process
              (find_links env.urljoin env.urlparse soup.sidebarAnchors u
                (env.urlparse u).path)
              c.max_links_to_process)).fs p = f p
        rw [scrape_section_body_fs env _ _ _ (section_heading n) (fsWrite_self _ _ _)]
        simp [hp, fsWrite]
    rw [hne]
    simp [hp]

lemma run_foldl_fs (env : Env) (config : Configuration) :
    ∀ (sections : List String) (f : FS) (fl : List String) (k : Nat) (p : String),
      (((sections.foldl (run_step env config) (f, ⟨fl, k⟩)).1 p).isSome = true) ↔
        (((f p).isSome = true) ∨
          ∃ s ∈ sections, p = os_path_join config.output_dir (s ++ ".md")) := by
  intro sections
  induction sections with
  | nil => intro f fl k p; simp
  | cons s t ih =>
    intro f fl k p
    have hstep : run_step env config (f, ⟨fl, k⟩) s =
        ((scrape_section env f (section_url_of config s) s config).fs,
         ⟨if (scrape_section env f (section_url_of config s) s config).failed_links.isEmpty
            then fl
            else fl ++ (scrape_section env f (section_url_of config s) s config).failed_links,
          k + (scrape_section env f (section_url_of config s) s config).total_links⟩) := rfl
    rw [List.foldl_cons, hstep, ih, scrape_section_fs_isSome]
    simp only [List.exists_mem_cons_iff]
    tauto

/-- Claim C6: a full run starting from an empty output directory leaves
behind exactly one file per configured section, at the path named after the
section, no matter which or how many links failed in any section. -/
theorem one_output_file_per_section (env : Env) (config : Configuration)
    (p : String) :
    (((run env fsEmpty config).1 p).isSome = true) ↔
      ∃ s ∈ config.sections, p = os_path_join config.output_dir (s ++ ".md") := by
  have h := run_foldl_fs env config config.sections fsEmpty [] 0 p
  rw [run] at *
  rw [h]
  simp [fsEmpty]

lemma process_links_foldl_lengths (net : String → Option ParsedPage)
    (m : String → String) :
    ∀ (links : List String) (pc fl : List String),
      (links.foldl (process_link_step net m) (pc, fl)).1.length +
        (links.foldl (process_link_step net m) (pc, fl)).2.length =
        pc.length + fl.length + links.length := by
  intro links
  induction links with
  | nil => intro pc fl; simp
  | cons l t ih =>
    intro pc fl
    rw [List.foldl_cons]
    cases hn : net l with
    | none =>
      rw [show process_link_step net m (pc, fl) l = (pc, fl ++ [l]) by
        simp [process_link_step, hn]]
      rw [ih]
      simp
      omega
    | some pg =>
      cases he : extract_content m pg l with
      | none =>
        rw [show process_link_step net m (pc, fl) l = (pc, fl ++ [l]) by
          simp [process_link_step, hn, he]]
        rw [ih]
        simp
        omega
      | some md =>
        by_cases hm : md.data.isEmpty
        · rw [show process_link_step net m (pc, fl) l = (pc, fl ++ [l]) by
            simp [process_link_step, hn, he, hm]]
          rw [ih]
          simp
          omega
        · rw [show process_link_step net m (pc, fl) l = (pc ++ [md], fl) by
            simp [process_link_step, hn, he, hm]]
          rw [ih]
          simp
          omega

lemma process_links_lengths (net : String → Option ParsedPage)
    (m : String → String) (links : List String) :
    (process_links net m links).1.length + (process_links net m links).2.length =
      links.length := by
  have h := process_links_foldl_lengths net m links [] []
  simpa [process_links] using h

lemma scrape_section_total (env : Env) (f : FS) (config : Configuration)
    (s : String) :
    (scrape_section env f (section_url_of config s) s config).total_links =
      section_total env config s := by
  cases hnet : env.net (section_url_of config s) with
  | none => simp [scrape_section, section_total, hnet]
  | some soup => simp [scrape_section, scrape_section_body, section_total, hnet]

lemma run_foldl_processed (env : Env) (config : Configuration) :
    ∀ (sections : List String) (f : FS) (fl : List String) (k : Nat),
      ((sections.foldl (run_step env config) (f, ⟨fl, k⟩)).2.links_processed) =
        k + (sections.map (section_total env config)).sum := by
  intro sections
  induction sections with
  | nil => intro f fl k; simp
  | cons s t ih =>
    intro f fl k
    have hstep : run_step env config (f, ⟨fl, k⟩) s =
        ((scrape_section env f (section_url_of config s) s config).fs,
         ⟨if (scrape_section env f (section_url_of config s) s config).failed_links.isEmpty
            then fl
            else fl ++ (scrape_section env f (section_url_of config s) s config).failed_links,
          k + (scrape_section env f (section_url_of config s) s config).total_links⟩) := rfl
    rw [List.foldl_cons, hstep, ih, scrape_section_total]
    rw [List.map_cons, List.sum_cons]
    omega

/-- Claim C4, evaluated at its failing input: a section whose only link
fails to fetch still contributes 1 to links_processed — the count reports
the links selected for processing in that section, not the links whose
fetch and extraction succeeded (here 0 succeed, and links_processed is 1). -/
theorem links_processed_includes_failed_links :
    links_to_process
        (find_links envRef.urljoin envRef.urlparse [⟨some glossaryUrl⟩]
          referenceUrl "/docs/reference/")
        configRef.max_links_to_process = [glossaryUrl] ∧
    (run envRef fsEmpty configRef).2.links_processed = 1 ∧
    (process_links envRef.net envRef.mdATX [glossaryUrl]).1.length = 0 ∧
    (run envRef fsEmpty configRef).2.links_processed ≠
      (process_links envRef.net envRef.mdATX [glossaryUrl]).1.length := by
  decide

/-- Claim C4 as amended: the links_processed accumulated by run is the sum,
over the configured sections, of the number of links selected for processing
in that section (after truncation; zero when the index fetch failed) — it
counts failed links as well, since every selected link goes either to the
page contents or to the failed list. -/
theorem run_links_processed_counts_selected (env : Env) (fs : FS)
    (config : Configuration) :
    (run env fs config).2.links_processed =
      (config.sections.map (section_total env config)).sum ∧
    ∀ links : List String,
      (process_links env.net env.mdATX links).1.length +
        (process_links env.net env.mdATX links).2.length = links.length := by
  constructor
  · have h := run_foldl_processed env config config.sections fs [] 0
    simpa [run] using h
  · intro links
    exact process_links_lengths env.net env.mdATX links

lemma pyEndsWith_append (x : String) :
    pyEndsWith (x ++ pageTrailer) pageTrailer = true := by
  rw [pyEndsWith, String.data_append]
  unfold List.isSuffixOf
  simp [List.isPrefixOf_iff_prefix]

lemma extract_content_has_trailer (m : String → String) (pg : ParsedPage)
    (l md : String) (h : extract_content m pg l = some md) :
    ∃ x, md = x ++ pageTrailer := by
  cases htc : pg.tdContent with
  | none =>
    rw [extract_content, htc] at h
    exact Option.noConfusion h
  | some d =>
    rw [extract_content, htc] at h
    exact ⟨_, (Option.some.inj h).symm⟩

lemma process_links_foldl_trailer (net : String → Option ParsedPage)
    (m : String → String) :
    ∀ (links : List String) (pc fl : List String),
      (∀ c ∈ pc, pyEndsWith c pageTrailer = true) →
      ∀ c ∈ (links.foldl (process_link_step net m) (pc, fl)).1,
        pyEndsWith c pageTrailer = true := by
  intro links
  induction links with
  | nil => intro pc fl hpc; simpa using hpc
  | cons l t ih =>
    intro pc fl hpc
    rw [List.foldl_cons]
    cases hn : net l with
    | none =>
      rw [show process_link_step net m (pc, fl) l = (pc, fl ++ [l]) by
        simp [process_link_step, hn]]
      exact ih pc (fl ++ [l]) hpc
    | some pg =>
      cases he : extract_content m pg l with
      | none =>
        rw [show process_link_step net m (pc, fl) l = (pc, fl ++ [l]) by
          simp [process_link_step, hn, he]]
        exact ih pc (fl ++ [l]) hpc
      | some md =>
        by_cases hm : md.data.isEmpty
        · rw [show process_link_step net m (pc, fl) l = (pc, fl ++ [l]) by
            simp [process_link_step, hn, he, hm]]
          exact ih pc (fl ++ [l]) hpc
        · rw [show process_link_step net m (pc, fl) l = (pc ++ [md], fl) by
            simp [process_link_step, hn, he, hm]]
          refine ih (pc ++ [md]) fl ?_
          intro c hc
          rcases List.mem_append.mp hc with hcp | hcm
          · exact hpc c hcp
          · obtain ⟨x, hx⟩ := extract_content_has_trailer m pg l md he
            rw [List.mem_singleton.mp hcm, hx]
            exact pyEndsWith_append x

lemma process_links_trailer (net : String → Option ParsedPage)
    (m : String → String) (links : List String) :
    ∀ c ∈ (process_links net m links).1, pyEndsWith c pageTrailer = true := by
  exact process_links_foldl_trailer net m links [] [] (by intro c hc; cases hc)

set_option maxRecDepth 4000 in
/-- Claim C9, evaluated at a run where it fails: a section with two links,
both fetched and extracted successfully, yields a section file that exists
and contains no NEW DOCUMENT delimiter line anywhere — scrape_section
appends the page bodies back to back without it. -/
theorem section_file_without_new_document_delimiter :
    (scrape_section envConcepts fsEmpty conceptsUrl "concepts" configConcepts).total_links
        = 2 ∧
    (scrape_section envConcepts fsEmpty conceptsUrl "concepts" configConcepts).failed_links
        = [] ∧
    (((scrape_section envConcepts fsEmpty conceptsUrl "concepts"
        configConcepts).fs "docs/concepts.md").isSome = true) ∧
    containsSub newDocumentLine.data
        (((scrape_section envConcepts fsEmpty conceptsUrl "concepts"
          configConcepts).fs "docs/concepts.md").getD "").data = false := by
  decide

/-- Claim C9 as amended: within a section file the successfully extracted
page bodies are written back to back under the heading, each body carrying
its own trailing 79-hyphen rule surrounded by blank lines, which is what
separates consecutive bodies; the NEW DOCUMENT delimiter surrounded by blank
lines is written only by FileWriter.write between consecutive items when
multiple_documents is set — a facility scrape_section does not use. -/
theorem section_bodies_separated_by_rule (env : Env) (fs : FS)
    (section_url section_name : String) (config : Configuration)
    (soup : ParsedPage) (h : env.net section_url = some soup) :
    (scrape_section env fs section_url section_name config).fs
        (os_path_join config.output_dir (section_name ++ ".md")) =
      some (section_heading section_name ++
        strJoin (process_links env.net env.mdATX
          (links_to_process
            (find_links env.urljoin env.urlparse soup.sidebarAnchors section_url
              (env.urlparse section_url).path)
            config.max_links_to_process)).1) ∧
    (∀ c ∈ (process_links env.net env.mdATX
        (links_to_process
          (find_links env.urljoin env.urlparse soup.sidebarAnchors section_url
            (env.urlparse section_url).path)
          config.max_links_to_process)).1,
      pyEndsWith c ("\n\n" ++ horizontalRule ++ "\n\n") = true) ∧
    (∀ (fw : FileWriter) (g : FS) (filename header a b : String),
      FileWriter.write fw g filename (WriteContent.items [a, b]) "w" (some header)
          ".md" true true =
        fsWrite g (os_path_join fw.output_dir (filename ++ ".md"))
          (header ++ a ++ print_document_separator ++ b)) := by
  refine ⟨scrape_section_fs_at env fs section_url section_name config soup h, ?_, ?_⟩
  · intro c hc
    exact process_links_trailer env.net env.mdATX _ c hc
  · intro fw g filename header a b
    rw [FileWriter.write]
    simp only [Bool.not_true, Bool.false_and, Bool.false_eq_true, if_false,
      write_items, strJoin, if_true]
    have hstr : ("" : String) ++ (some header).getD "" ++
        (a ++ (print_document_separator ++ b ++ "")) =
        header ++ a ++ print_document_separator ++ b := by
      simp [Option.getD_some, String.empty_append, String.append_empty,
        String.append_assoc]
    rw [hstr]

theorem section_bodies_separated_by_rule_witness :
    (scrape_section envConcepts fsEmpty conceptsUrl "concepts" configConcepts).fs
        "docs/concepts.md" =
      some (section_heading "concepts" ++
        strJoin (process_links envConcepts.net envConcepts.mdATX
          (links_to_process
            (find_links envConcepts.urljoin envConcepts.urlparse
              [⟨some conceptsPg1⟩, ⟨some conceptsPg2⟩] conceptsUrl
              (envConcepts.urlparse conceptsUrl).path)
            configConcepts.max_links_to_process)).1) :=
  (section_bodies_separated_by_rule envConcepts fsEmpty conceptsUrl "concepts"
    configConcepts ⟨[⟨some conceptsPg1⟩, ⟨some conceptsPg2⟩], none⟩ rfl).1

lemma changelog_loop_all_ok (fetch : Nat → FetchOutcome) (bodies : Nat → String)
    (h : ∀ v, fetch v = FetchOutcome.response true (bodies v)) :
    ∀ (l : List Nat) (md : String),
      changelog_loop fetch l md =
        some (md ++ strJoin (l.map fun v => bodies v ++ pageTrailer)) := by
  intro l
  induction l with
  | nil => intro md; simp [changelog_loop, strJoin, String.append_empty]
  | cons v t ih =>
    intro md
    rw [changelog_loop, h v]
    simp only [if_true]
    rw [ih]
    rw [List.map_cons, strJoin]
    simp [String.append_assoc]

lemma changelog_loop_failure (fetch : Nat → FetchOutcome) (v : Nat)
    (hfail : ∀ b, fetch v ≠ FetchOutcome.response true b) :
    ∀ (l : List Nat), v ∈ l → ∀ md, changelog_loop fetch l md = none := by
  intro l
  induction l with
  | nil => intro hv; cases hv
  | cons x t ih =>
    intro hv md
    rw [changelog_loop]
    cases hx : fetch x with
    | netError => rfl
    | response ok body =>
      cases ok with
      | false => simp
      | true =>
        simp only [if_true]
        rcases List.mem_cons.mp hv with hvx | hvt
        · subst hvx
          exact absurd hx (hfail body)
        · exact ih hvt _

/-- Claim C7: with the version pointer reporting latest version 1.31 and
every changelog fetch succeeding, get_changelog walks the minor versions 31
down to 9 inclusive — 23 of them, in that order — and returns their bodies
concatenated in that descending order, each followed by the separator, under
the single changelog header. -/
theorem changelog_131_fetches_31_down_to_9 (fetch : Nat → Nat → FetchOutcome)
    (bodies : Nat → String)
    (h : ∀ v, fetch 1 v = FetchOutcome.response true (bodies v)) :
    pyRangeDown 31 (9 - 1) =
      [31, 30, 29, 28, 27, 26, 25, 24, 23, 22, 21, 20, 19, 18, 17, 16, 15,
        14, 13, 12, 11, 10, 9] ∧
    (pyRangeDown 31 (9 - 1)).length = 23 ∧
    get_changelog fetch "v1.31.4" =
      some ("# Kubernetes Changelog upto 1.31\n\n" ++
        strJoin ((pyRangeDown 31 (9 - 1)).map fun v => bodies v ++ pageTrailer)) := by
  refine ⟨by decide, by decide, ?_⟩
  have hred : get_changelog fetch "v1.31.4" =
      changelog_loop (fetch 1) (pyRangeDown 31 (9 - 1))
        "# Kubernetes Changelog upto 1.31\n\n" := rfl
  rw [hred, changelog_loop_all_ok (fetch 1) bodies h]

theorem changelog_131_fetches_31_down_to_9_witness :
    get_changelog (fun _ v => FetchOutcome.response true (Nat.repr v)) "v1.31.4" =
      some ("# Kubernetes Changelog upto 1.31\n\n" ++
        strJoin ((pyRangeDown 31 (9 - 1)).map fun v => Nat.repr v ++ pageTrailer)) :=
  (changelog_131_fetches_31_down_to_9 (fun _ v => FetchOutcome.response true (Nat.repr v))
    Nat.repr (fun _ => rfl)).2.2

/-- Claim C8, evaluated at a run where it fails: with latest version 1.31,
version 31 failing to fetch and every other version succeeding, get_changelog
produces no output at all — nothing is written, not even the versions that
succeeded, instead of skipping the failed version and continuing. -/
theorem changelog_single_failure_drops_all_output :
    fetchOneFail 1 31 = FetchOutcome.netError ∧
    fetchOneFail 1 30 = FetchOutcome.response true "ok" ∧
    fetchOneFail 1 9 = FetchOutcome.response true "ok" ∧
    get_changelog fetchOneFail "v1.31.0" = none := by
  decide

/-- Claim C8 as amended: when the fetch of any one version raises or returns
a non-2xx status, get_changelog logs the error and returns early without
writing any output file; the markdown accumulated from earlier versions (and
the error body, in the non-2xx case) is discarded rather than written. -/
theorem get_changelog_aborts_on_any_version_failure
    (fetch : Nat → Nat → FetchOutcome) (v : Nat)
    (hmem : v ∈ pyRangeDown 31 (9 - 1))
    (hfail : ∀ b, fetch 1 v ≠ FetchOutcome.response true b) :
    get_changelog fetch "v1.31.0" = none := by
  have hred : get_changelog fetch "v1.31.0" =
      changelog_loop (fetch 1) (pyRangeDown 31 (9 - 1))
        "# Kubernetes Changelog upto 1.31\n\n" := rfl
  rw [hred]
  exact changelog_loop_failure (fetch 1) v hfail _ hmem _

theorem get_changelog_aborts_on_any_version_failure_witness :
    get_changelog fetchOneFail "v1.31.0" = none :=
  get_changelog_aborts_on_any_version_failure fetchOneFail 31 (by decide)
    (fun b hb => FetchOutcome.noConfusion hb)

end KubeScraper
